import Mathlib

/-!
Verification of the WhatsApp webhook-ingestion service (FastAPI + SQLite).

The development shallowly embeds the request-handling core of the repository:

* `app/core/security.py` — HMAC-SHA256 signature computation and the
  `SignatureValidator` dependency (`compute_signature`, `verify_signature`,
  `signature_validator`).
* `app/schemas/message.py` — payload validation (`E164_PATTERN`, the `from`/`to`
  E.164 validators, the `ts` UTC-suffix validator, field length bounds).
* `app/api/webhook.py` — idempotent ingestion (`ingest_message`, `post_webhook`).
* `app/api/messages.py` — filtered, paginated listing (`list_messages`).
* `app/api/metrics.py` — request metrics with the capped duration buffer
  (`record_request`).

Machine integers are modelled as `Nat` with explicit reduction mod `2 ^ 32`
where SHA-256 needs wrap-around; byte strings are `List Nat` with entries
below 256.  Library behaviour the repository calls into (Python's `json.loads`
and pydantic's datetime parser) is abstracted as function parameters
(`parseJson`, `parseTs`); everything else is translated directly from the
source files.
-/

/-! ## SHA-256 and HMAC (`hashlib.sha256`, `hmac.new`), as used by
`app/core/security.py`.  Words are `Nat` values kept below `2 ^ 32`. -/

def w32 : Nat := 4294967296

def add32 (a b : Nat) : Nat := (a + b) % w32

def rotr32 (n x : Nat) : Nat := ((x >>> n) ||| (x <<< (32 - n))) % w32

def shr32 (n x : Nat) : Nat := x >>> n

def xor3 (a b c : Nat) : Nat := Nat.xor (Nat.xor a b) c

/-- SHA-256 round constants (FIPS 180-4), written in decimal. -/
def sha256K : List Nat :=
  [1116352408, 1899447441, 3049323471, 3921009573, 961987163, 1508970993,
   2453635748, 2870763221, 3624381080, 310598401, 607225278, 1426881987,
   1925078388, 2162078206, 2614888103, 3248222580, 3835390401, 4022224774,
   264347078, 604807628, 770255983, 1249150122, 1555081692, 1996064986,
   2554220882, 2821834349, 2952996808, 3210313671, 3336571891, 3584528711,
   113926993, 338241895, 666307205, 773529912, 1294757372, 1396182291,
   1695183700, 1986661051, 2177026350, 2456956037, 2730485921, 2820302411,
   3259730800, 3345764771, 3516065817, 3600352804, 4094571909, 275423344,
   430227734, 506948616, 659060556, 883997877, 958139571, 1322822218,
   1537002063, 1747873779, 1955562222, 2024104815, 2227730452, 2361852424,
   2428436474, 2756734187, 3204031479, 3329325298]

/-- SHA-256 initial hash value (FIPS 180-4), written in decimal. -/
def sha256H0 : List Nat :=
  [1779033703, 3144134277, 1013904242, 2773480762,
   1359893119, 2600822924, 528734635, 1541459225]

/-- Big-endian byte rendering of `n`, `k` bytes wide. -/
def beBytes : Nat → Nat → List Nat
  | 0, _ => []
  | k + 1, n => beBytes k (n >>> 8) ++ [n % 256]

/-- SHA-256 padding: a `0x80` byte, zeros up to 56 mod 64, then the 8-byte
big-endian bit length. -/
def sha256Pad (msg : List Nat) : List Nat :=
  let l := msg.length
  let zeros := (64 + 55 - (l % 64)) % 64
  msg ++ [0x80] ++ List.replicate zeros 0 ++ beBytes 8 (l * 8)

/-- Fold each group of 4 big-endian bytes into one 32-bit word. -/
def bytesToWords : List Nat → List Nat
  | b0 :: b1 :: b2 :: b3 :: rest => (((b0 * 256 + b1) * 256 + b2) * 256 + b3) :: bytesToWords rest
  | _ => []

/-- Split a padded message into 64-byte blocks.  The fuel argument (the list
length) keeps the recursion structural. -/
def chunk64 (l : List Nat) : List (List Nat) :=
  go l.length l
where
  go : Nat → List Nat → List (List Nat)
  | 0, _ => []
  | fuel + 1, xs =>
    if xs.length ≤ 64 then [xs] else xs.take 64 :: go fuel (xs.drop 64)

def smallSigma0 (x : Nat) : Nat := xor3 (rotr32 7 x) (rotr32 18 x) (shr32 3 x)

def smallSigma1 (x : Nat) : Nat := xor3 (rotr32 17 x) (rotr32 19 x) (shr32 10 x)

def bigSigma0 (x : Nat) : Nat := xor3 (rotr32 2 x) (rotr32 13 x) (rotr32 22 x)

def bigSigma1 (x : Nat) : Nat := xor3 (rotr32 6 x) (rotr32 11 x) (rotr32 25 x)

def chFn (x y z : Nat) : Nat :=
  Nat.xor (Nat.land x y) (Nat.land (Nat.land (w32 - 1 - x) z) (w32 - 1))

def majFn (x y z : Nat) : Nat := xor3 (Nat.land x y) (Nat.land x z) (Nat.land y z)

/-- Extend the 16 block words by `n` more schedule words. -/
def extendSchedule : Nat → List Nat → List Nat
  | 0, ws => ws
  | n + 1, ws =>
    let k := ws.length
    let w := add32 (add32 (smallSigma1 (ws.getD (k - 2) 0)) (ws.getD (k - 7) 0))
                   (add32 (smallSigma0 (ws.getD (k - 15) 0)) (ws.getD (k - 16) 0))
    extendSchedule n (ws ++ [w])

/-- One compression round.  The working state is the 8-word list
`[a, b, c, d, e, f, g, h]`; any other shape is returned unchanged. -/
def sha256Round (st : List Nat) (kw : Nat × Nat) : List Nat :=
  match st with
  | [a, b, c, d, e, f, g, h] =>
    let t1 := add32 (add32 (add32 h (bigSigma1 e)) (add32 (chFn e f g) kw.1)) kw.2
    let t2 := add32 (bigSigma0 a) (majFn a b c)
    [add32 t1 t2, a, b, c, add32 d t1, e, f, g]
  | other => other

/-- Compress one 64-byte block into the running hash value. -/
def sha256Compress (h : List Nat) (block : List Nat) : List Nat :=
  let ws := extendSchedule 48 (bytesToWords block)
  let st := (sha256K.zip ws).foldl (fun s kw => sha256Round s kw) h
  (h.zip st).map (fun p => add32 p.1 p.2)

/-- SHA-256 of a byte list, as a 32-byte list. -/
def sha256 (msg : List Nat) : List Nat :=
  let blocks := chunk64 (sha256Pad msg)
  let hFinal := blocks.foldl sha256Compress sha256H0
  hFinal.flatMap (beBytes 4)

def hexDigitChar (n : Nat) : Char :=
  if n < 10 then Char.ofNat (48 + n) else Char.ofNat (87 + n)

/-- Lowercase hex rendering of a byte list (`.hexdigest()` in Python). -/
def toHex (bytes : List Nat) : String :=
  String.mk (bytes.flatMap (fun b => [hexDigitChar (b / 16), hexDigitChar (b % 16)]))

/-- UTF-8 encoding of a string as a byte list (`str.encode("utf-8")`). -/
def utf8Bytes (s : String) : List Nat :=
  s.data.flatMap fun c =>
    let n := c.toNat
    if n < 128 then [n]
    else if n < 2048 then [192 + n / 64, 128 + n % 64]
    else if n < 65536 then [224 + n / 4096, 128 + (n / 64) % 64, 128 + n % 64]
    else [240 + n / 262144, 128 + (n / 4096) % 64, 128 + (n / 64) % 64, 128 + n % 64]

/-- HMAC-SHA256 (RFC 2104) over byte lists, with the SHA-256 block size 64. -/
def hmacSha256 (key msg : List Nat) : List Nat :=
  let k0 := if key.length > 64 then sha256 key else key
  let k0p := k0 ++ List.replicate (64 - k0.length) 0
  let ipad := k0p.map (fun b => Nat.xor b 0x36)
  let opad := k0p.map (fun b => Nat.xor b 0x5c)
  sha256 (opad ++ sha256 (ipad ++ msg))

/-- `compute_signature` from `app/core/security.py`: the hex HMAC-SHA256 digest
of the raw body, keyed by the UTF-8 bytes of the secret. -/
def compute_signature (secret : String) (body : List Nat) : String :=
  toHex (hmacSha256 (utf8Bytes secret) body)

/-! ## `app/core/security.py`: `verify_signature` and `SignatureValidator` -/

/-- Whether a Python `str` is ASCII-only (`str.isascii()`): every character
below code point 128. -/
def isAsciiString (s : String) : Bool :=
  s.data.all (fun c => c.toNat < 128)

/-- `hmac.compare_digest` on two `str` arguments: CPython raises
`TypeError: comparing strings with non-ASCII characters is not supported`
when either string contains a non-ASCII character (`.error ()`), and
otherwise returns their (constant-time) equality. -/
def compare_digest (a b : String) : Except Unit Bool :=
  if !isAsciiString a || !isAsciiString b then .error ()
  else .ok (a == b)

/-- `verify_signature`: recomputes the expected signature and passes both
strings through `hmac.compare_digest`.  The `TypeError` for a non-ASCII
provided signature is not caught here and propagates to the caller. -/
def verify_signature (secret : String) (body : List Nat) (signature : String) :
    Except Unit Bool :=
  compare_digest (compute_signature secret body) signature

/-- The slice of `Settings` (`app/core/config.py`) the webhook path reads:
`webhook_secret` is `None` when the environment variable is absent. -/
structure Settings where
  webhook_secret : Option String
deriving Repr, DecidableEq

/-- `Settings.is_webhook_secret_configured`:
`bool(self.webhook_secret and len(self.webhook_secret) > 0)` — false for
`None` and for the empty string. -/
def is_webhook_secret_configured (s : Settings) : Bool :=
  match s.webhook_secret with
  | none => false
  | some sec => decide (0 < sec.length)

/-- The observable outcome of a webhook request: `ok` is
`200 {"status":"ok"}`; `httpError` carries a raised `HTTPException`'s status
code and detail; `serverError` is an exception that propagates out of the
handler uncaught (such as `compare_digest`'s `TypeError`), which the framework
answers with `500 Internal Server Error`. -/
inductive WebhookOutcome where
  | ok : WebhookOutcome
  | httpError (status : Nat) (detail : String) : WebhookOutcome
  | serverError : WebhookOutcome
deriving Repr, DecidableEq

/-- The HTTP status code of an outcome. -/
def WebhookOutcome.statusCode : WebhookOutcome → Nat
  | .ok => 200
  | .httpError s _ => s
  | .serverError => 500

/-- `SignatureValidator.__call__` from `app/core/security.py`: reads the
`X-Signature` header (`none` when absent; headers are latin-1-decoded strings,
so non-ASCII values can arrive), rejects absent/empty header
(`if not signature`), unconfigured secret, and mismatching signature — each
with the identical `HTTPException(401, "invalid signature")` — and otherwise
returns the raw body.  A `TypeError` raised inside `verify_signature`
propagates uncaught, becoming a 500 response. -/
def signature_validator (settings : Settings) (xSignature : Option String)
    (body : List Nat) : Except WebhookOutcome (List Nat) :=
  if (match xSignature with | none => true | some s => s.isEmpty) then
    .error (.httpError 401 "invalid signature")
  else if !is_webhook_secret_configured settings then
    .error (.httpError 401 "invalid signature")
  else
    match verify_signature (settings.webhook_secret.getD "") body (xSignature.getD "") with
    | .error _ => .error .serverError
    | .ok false => .error (.httpError 401 "invalid signature")
    | .ok true => .ok body

/-! ## `app/schemas/message.py`: `WebhookMessageRequest` validation -/

/-- The character class Python's `\d` denotes inside `E164_PATTERN` (a `str`
pattern, hence Unicode): any decimal digit, category Nd.  Embedded as the
ASCII digits plus the Arabic-Indic, Extended Arabic-Indic and Devanagari
ranges — an under-approximation of Nd (which has many more ranges).  This is
sound for the development: where a theorem needs the model to reject exactly
what the regex rejects, its statement restricts the strings to ASCII, on
which this subset coincides with Nd; in the other direction, acceptance by
the model (a subset of `\d`) always implies acceptance by the code. -/
def pyDigit (c : Char) : Bool :=
  c.isDigit || (0x660 ≤ c.toNat && c.toNat ≤ 0x669) ||
    (0x6F0 ≤ c.toNat && c.toNat ≤ 0x6F9) || (0x966 ≤ c.toNat && c.toNat ≤ 0x96F)

/-- `E164_PATTERN.match(v)`: Python's `re.compile(r"^\+[1-9]\d{1,14}$").match`.
`^...$` anchors the match to the whole string, except that `$` also matches
just before one newline at the very end of the string, so a single trailing
`'\n'` is tolerated; `\d` is `pyDigit` (see its caveat). -/
def e164_match (s : String) : Bool :=
  let cs := if s.data.getLast? = some '\n' then s.data.dropLast else s.data
  match cs with
  | '+' :: d :: rest =>
    ('1' ≤ d && d ≤ '9') && (1 ≤ rest.length && rest.length ≤ 14) && rest.all pyDigit
  | _ => false

/-- `v.endswith("Z")` for the one-character suffix: the last character is
`'Z'`. -/
def endsWithZ (s : String) : Bool :=
  s.data.getLast? == some 'Z'

/-- The JSON value carried by the payload's `ts` field before validation: a
JSON string, or a JSON number (pydantic accepts numbers as Unix-second
timestamps).  Other JSON types fail pydantic's datetime coercion and are not
modelled. -/
inductive TsValue where
  | str (s : String) : TsValue
  | num (n : Int) : TsValue
deriving Repr, DecidableEq

/-- The raw textual representation of the `ts` field inside the JSON
document: the string itself, or the decimal rendering of the number. -/
def tsRawText : TsValue → String
  | .str s => s
  | .num n => toString n

/-- `validate_ts_utc` (mode `before`): only when the incoming value is a
string (`isinstance(v, str)`) must it end with the literal `'Z'`; a JSON
number skips the check entirely. -/
def ts_z_guard : TsValue → Bool
  | .str s => endsWithZ s
  | .num _ => true

/-- The JSON object a webhook request carries, after `json.loads`: the five
payload fields, `ts` still as the raw JSON value, `text` absent-or-present. -/
structure Payload where
  message_id : String
  from_ : String
  to_ : String
  ts : TsValue
  text : Option String
deriving Repr, DecidableEq

/-- A stored `Message` row (`app/models/message.py`).  `ts` is the parsed
timestamp, modelled as an integer instant; `created_at` (insert-time metadata
no claim refers to) is omitted. -/
structure Msg where
  message_id : String
  sender : String
  recipient : String
  ts : Int
  text : Option String
deriving Repr, DecidableEq

/-- `WebhookMessageRequest.model_validate`: field constraints from
`app/schemas/message.py` in declaration order — `message_id` 1–255 chars,
`from`/`to` non-empty and matching `E164_PATTERN` (the `not v` guard is
subsumed: `e164_match "" = false`), `ts` passing `validate_ts_utc`'s
string-only `Z` check and then pydantic's datetime coercion (the `parseTs`
parameter, over the raw JSON value), `text` optional with at most 4096 chars.
Any violation is a validation error (`none`). -/
def model_validate (parseTs : TsValue → Option Int) (p : Payload) : Option Msg :=
  if !(1 ≤ p.message_id.length && p.message_id.length ≤ 255) then none
  else if !e164_match p.from_ then none
  else if !e164_match p.to_ then none
  else if !ts_z_guard p.ts then none
  else
    match parseTs p.ts with
    | none => none
    | some t =>
      if !(match p.text with | none => true | some s => s.length ≤ 4096) then none
      else some ⟨p.message_id, p.from_, p.to_, t, p.text⟩

/-! ## `app/api/webhook.py`: `ingest_message` -/

/-- Stands for `str(e)` — pydantic's rendering of the validation error.  No
claim inspects the 422 detail text, only the status. -/
def validation_error_detail : String := "validation error"

/-- The post-authentication body of `ingest_message`: validate the payload
(422 on failure), then the idempotency check — if a row with the same
`message_id` exists the store is untouched and the response is still `ok`;
otherwise the new row is inserted.  The `IntegrityError` branch exists only
for concurrent duplicates and is unreachable in this sequential model. -/
def ingest_message (parseTs : TsValue → Option Int) (db : List Msg) (p : Payload) :
    WebhookOutcome × List Msg :=
  match model_validate parseTs p with
  | none => (.httpError 422 validation_error_detail, db)
  | some m =>
    if db.any (fun r => r.message_id == m.message_id) then (.ok, db)
    else (.ok, db ++ [m])

/-- The full `POST /webhook` pipeline: the `SignatureValidator` dependency,
then `json.loads` (the `parseJson` parameter; `422 "Invalid JSON"` on failure),
then `ingest_message`. -/
def post_webhook (parseJson : List Nat → Option Payload) (parseTs : TsValue → Option Int)
    (settings : Settings) (xSignature : Option String) (rawBody : List Nat)
    (db : List Msg) : WebhookOutcome × List Msg :=
  match signature_validator settings xSignature rawBody with
  | .error e => (e, db)
  | .ok body =>
    match parseJson body with
    | none => (.httpError 422 "Invalid JSON", db)
    | some p => ingest_message parseTs db p

/-! ## `app/api/messages.py`: `list_messages` -/

/-- Python truthiness of an optional query string: `if from_:` / `if q:` skip
the filter for an absent parameter and for the empty string alike. -/
def strTruthy : Option String → Bool
  | none => false
  | some s => !s.isEmpty

/-- SQLite `lower()`: ASCII-only case folding, applied characterwise.
`Char.toLower` maps exactly `A`–`Z` to `a`–`z`, matching SQLite. -/
def lowerChars (l : List Char) : List Char := l.map Char.toLower

/-- SQL `LIKE` pattern matching: `%` matches any sequence, `_` any single
character, anything else itself.  Structural recursion on the pattern; the
`%` case tries every suffix of the candidate. -/
def likeMatch : List Char → List Char → Bool
  | [], cs => cs.isEmpty
  | p :: ps, cs =>
    if p = '%' then cs.tails.any fun t => likeMatch ps t
    else
      match cs with
      | [] => false
      | c :: cs' => (p = '_' || p == c) && likeMatch ps cs'

/-- `Message.text.ilike(f"%{q}%")`: SQLAlchemy renders
`lower(messages.text) LIKE lower('%' || q || '%')`; a SQL `NULL` text never
satisfies `LIKE`, so a row with absent text is filtered out. -/
def text_ilike (q : String) : Option String → Bool
  | none => false
  | some t => likeMatch (lowerChars ('%' :: q.data ++ ['%'])) (lowerChars t.data)

/-- The conjunction of the three optional filters of `list_messages`:
exact `sender` match when `from_` is truthy, `ts >= since` when `since` is
present (a `datetime` is always truthy), and the `ilike` text filter when `q`
is truthy. -/
def passes_filters (from_ : Option String) (since : Option Int) (q : Option String)
    (m : Msg) : Bool :=
  (if strTruthy from_ then m.sender == from_.getD "" else true) &&
  (match since with | some t => decide (t ≤ m.ts) | none => true) &&
  (if strTruthy q then text_ilike (q.getD "") m.text else true)

/-- The `ORDER BY ts ASC, message_id ASC` ordering: lexicographic on the pair
`(ts, message_id)` (SQLite compares TEXT columns bytewise, which on UTF-8 is
code-point order, as `String`'s order is). -/
def msgOrder (a b : Msg) : Prop :=
  a.ts < b.ts ∨ (a.ts = b.ts ∧ a.message_id ≤ b.message_id)

instance msgOrder.instDecidableRel : DecidableRel msgOrder := fun a b =>
  decidable_of_iff (a.ts < b.ts ∨ (a.ts = b.ts ∧ a.message_id ≤ b.message_id)) Iff.rfl

/-- `GET /messages` (`list_messages` in `app/api/messages.py`): filter, count
the filtered set (`total`), order by `(ts, message_id)` ascending, then apply
`OFFSET offset LIMIT limit`.  Returns the page and `total`.  (FastAPI also
bounds `limit` to 1–100 and `offset` to ≥ 0 before the handler runs; the
handler body itself is total in them.) -/
def list_messages (db : List Msg) (limit offset : Nat)
    (from_ : Option String) (since : Option Int) (q : Option String) :
    List Msg × Nat :=
  let filtered := db.filter (passes_filters from_ since q)
  let total := filtered.length
  let ordered := filtered.insertionSort msgOrder
  ((ordered.drop offset).take limit, total)

/-! ## `app/api/metrics.py`: `record_request` -/

/-- Update (or insert) a key in a Python-dict-like association list. -/
def setAssoc {α : Type} : List (String × α) → String → α → List (String × α)
  | [], k, v => [(k, v)]
  | (k', v') :: rest, k, v =>
    if k' = k then (k, v) :: rest else (k', v') :: setAssoc rest k v

/-- The duration-dictionary key `f'{method}_{path}'`. -/
def durKey (method path : String) : String := method ++ "_" ++ path

/-- The counter key `f'{method}_{path}_{status_code}'`. -/
def countKey (method path : String) (status : Nat) : String :=
  method ++ "_" ++ path ++ "_" ++ toString status

/-- The `_metrics` module state: the request counter dict and the per-key
duration buffers.  Durations are `float` seconds in Python; the buffer
discipline is value-agnostic, so samples are embedded as integers. -/
structure Metrics where
  http_requests_total : List (String × Nat)
  http_request_duration_seconds : List (String × List Int)
deriving Repr, DecidableEq

/-- The state at process start: both dicts empty. -/
def initMetrics : Metrics := ⟨[], []⟩

/-- `record_request`: bump the `(method, path, status)` counter, append the
duration to the `(method, path)` buffer, and when the buffer exceeds 1000
entries keep only `durations[-1000:]` — the most recent 1000. -/
def record_request (m : Metrics) (method path : String) (status : Nat)
    (duration : Int) : Metrics :=
  let key := countKey method path status
  let total := setAssoc m.http_requests_total key
    ((m.http_requests_total.lookup key).getD 0 + 1)
  let dkey := durKey method path
  let durations := (m.http_request_duration_seconds.lookup dkey).getD [] ++ [duration]
  let durations :=
    if durations.length > 1000 then durations.drop (durations.length - 1000) else durations
  ⟨total, setAssoc m.http_request_duration_seconds dkey durations⟩

/-- One completed request as the `MetricsMiddleware` reports it. -/
structure ReqEvent where
  method : String
  path : String
  status : Nat
  duration : Int
deriving Repr, DecidableEq

/-- The metrics state after a sequence of recorded requests, starting from the
empty state. -/
def run_requests (evs : List ReqEvent) : Metrics :=
  evs.foldl (fun m e => record_request m e.method e.path e.status e.duration) initMetrics

/-- The duration buffer stored for a key (`[]` when the key is absent). -/
def durBuffer (m : Metrics) (key : String) : List Int :=
  (m.http_request_duration_seconds.lookup key).getD []

/-- The suffix of the most recent `n` entries (`l[-n:]` in Python). -/
def lastN (n : Nat) (l : List α) : List α := l.drop (l.length - n)

/-! ## Spec-side notions used to state the claims -/

/-- The claim's reading of the E.164 pattern `+[1-9][0-9]{1,14}` as a full
match: leading `+`, first digit `1`–`9`, 2–15 digits in total, digits `0`–`9`
only. -/
def e164_claim_pattern (s : String) : Bool :=
  match s.data with
  | '+' :: d :: rest =>
    ('1' ≤ d && d ≤ '9') && (1 ≤ rest.length && rest.length ≤ 14) && rest.all Char.isDigit
  | _ => false

/-- Case-insensitive substring containment, the spec's description of the `q`
filter, with the same ASCII case folding SQLite applies: the lowered `q`
occurs inside the lowered text.  A row with absent text contains nothing. -/
def textContainsCI (q : String) : Option String → Prop
  | none => False
  | some t => lowerChars q.data <:+: lowerChars t.data

instance textContainsCI.instDecidable (q : String) :
    ∀ o : Option String, Decidable (textContainsCI q o)
  | none => isFalse id
  | some t => inferInstanceAs (Decidable (lowerChars q.data <:+: lowerChars t.data))

/-- The rows a filter combination denotes: the listing page with pagination
wide enough to hold every row (`offset = 0`, `limit` = store size). -/
def listing_page (db : List Msg) (fo : Option String) (so : Option Int)
    (qo : Option String) : List Msg :=
  (list_messages db db.length 0 fo so qo).1

/-- A query string free of the SQL `LIKE` wildcards `%` and `_`. -/
def noWildcards (s : String) : Prop := ∀ c ∈ s.data, c ≠ '%' ∧ c ≠ '_'

/-- Fixed parser stubs used by concrete witnesses: a JSON decode that always
fails, and a datetime coercion mapping every string to the instant 0 and
every Unix-second number to itself. -/
def exParseJsonNone : List Nat → Option Payload := fun _ => none

def exParseTs : TsValue → Option Int := fun v =>
  match v with
  | .str _ => some 0
  | .num n => some n

/-- The spec's worked example payload, with `ts` ending in `Z`. -/
def exGoodPayload : Payload :=
  ⟨"m1", "+919876543210", "+14155550100", .str "2025-01-15T10:00:00Z", some "Hello"⟩

/-- The row `exGoodPayload` validates to under `exParseTs`. -/
def exGoodMsg : Msg := ⟨"m1", "+919876543210", "+14155550100", 0, some "Hello"⟩

/-- A JSON decode returning the example payload for every body. -/
def exParseJsonGood : List Nat → Option Payload := fun _ => some exGoodPayload

/-- A payload whose `ts` denotes a valid instant but is written with a
`+05:30` offset rather than the `Z` suffix. -/
def exBadTsPayload : Payload :=
  ⟨"m1", "+919876543210", "+14155550100", .str "2025-01-15T10:00:00+05:30", some "Hello"⟩

/-- A payload whose `ts` arrives as the JSON number 1736935200 — a Unix
timestamp, whose raw text is the digits `1736935200`, not ending in `Z`. -/
def exNumericTsPayload : Payload :=
  ⟨"m2", "+919876543210", "+14155550100", .num 1736935200, some "Hello"⟩

/-- The row the numeric-`ts` payload is stored as. -/
def exNumericMsg : Msg := ⟨"m2", "+919876543210", "+14155550100", 1736935200, some "Hello"⟩

/-- C2 as stated: `verify_signature` succeeds with `true` exactly when the
provided signature equals the recomputed digest, and consequently every
`POST /webhook` whose `X-Signature` differs from the digest is answered
`401 "invalid signature"`. -/
def C2Stated : Prop :=
  (∀ (secret : String) (body : List Nat) (sig : String),
    verify_signature secret body sig = .ok true ↔ sig = compute_signature secret body) ∧
  (∀ (parseJson : List Nat → Option Payload) (parseTs : TsValue → Option Int)
    (secret : String) (xSignature : Option String) (rawBody : List Nat) (db : List Msg),
    0 < secret.length →
    xSignature ≠ some (compute_signature secret rawBody) →
    (post_webhook parseJson parseTs ⟨some secret⟩ xSignature rawBody db).1 =
      .httpError 401 "invalid signature")

/-- C3 as stated: missing header, unconfigured secret, and signature mismatch
all produce the identical `401 "invalid signature"` response. -/
def C3Stated : Prop :=
  (∀ (settings : Settings) (body : List Nat),
    signature_validator settings none body = .error (.httpError 401 "invalid signature")) ∧
  (∀ (settings : Settings) (body : List Nat) (sig : String),
    is_webhook_secret_configured settings = false →
    signature_validator settings (some sig) body =
      .error (.httpError 401 "invalid signature")) ∧
  (∀ (secret : String) (body : List Nat) (sig : String),
    0 < secret.length →
    sig ≠ compute_signature secret body →
    signature_validator ⟨some secret⟩ (some sig) body =
      .error (.httpError 401 "invalid signature"))

/-- C4 as stated: the code's `from`/`to` validation accepts exactly the
strings fully matching `+[1-9][0-9]{1,14}` (2–15 digits, digits `0`–`9`, i.e.
`Char.isDigit`, only), and every correctly signed payload with a
non-matching `from` or `to` is answered 422 with nothing stored. -/
def C4Stated : Prop :=
  (∀ s : String, e164_match s = true ↔ e164_claim_pattern s = true) ∧
  (∀ (parseTs : TsValue → Option Int) (db : List Msg) (p : Payload),
    (e164_claim_pattern p.from_ = false ∨ e164_claim_pattern p.to_ = false) →
    (ingest_message parseTs db p).1.statusCode = 422 ∧
    (ingest_message parseTs db p).2 = db)

/-- A payload whose `from` is not a phone number at all. -/
def exBadFromPayload : Payload :=
  ⟨"m1", "notaphone", "+14155550100", .str "2025-01-15T10:00:00Z", some "Hello"⟩

instance msgOrder.instIsTotal : IsTotal Msg msgOrder :=
  ⟨fun a b => by
    unfold msgOrder
    rcases lt_trichotomy a.ts b.ts with h | h | h
    · exact Or.inl (Or.inl h)
    · rcases le_total a.message_id b.message_id with h2 | h2
      · exact Or.inl (Or.inr ⟨h, h2⟩)
      · exact Or.inr (Or.inr ⟨h.symm, h2⟩)
    · exact Or.inr (Or.inl h)⟩

instance msgOrder.instIsTrans : IsTrans Msg msgOrder :=
  ⟨fun a b c hab hbc => by
    unfold msgOrder at hab hbc ⊢
    rcases hab with h1 | ⟨e1, l1⟩ <;> rcases hbc with h2 | ⟨e2, l2⟩
    · exact Or.inl (h1.trans h2)
    · exact Or.inl (e2 ▸ h1)
    · exact Or.inl (e1 ▸ h2)
    · exact Or.inr ⟨e1.trans e2, l1.trans l2⟩⟩

/-- C6 as stated: each filter returns exactly its matching rows — `from=X`
the rows with `sender = X`, `since=T` the rows with `ts ≥ T`, `q` the rows
whose text contains `q` case-insensitively — any combination returns the
intersection of the individual result sets, and `total` is the size of the
filtered set before pagination. -/
def C6Stated : Prop :=
  ∀ (db : List Msg) (X : String) (T : Int) (qs : String),
    (∀ m, m ∈ listing_page db (some X) none none ↔ m ∈ db ∧ m.sender = X) ∧
    (∀ m, m ∈ listing_page db none (some T) none ↔ m ∈ db ∧ T ≤ m.ts) ∧
    (∀ m, m ∈ listing_page db none none (some qs) ↔ m ∈ db ∧ textContainsCI qs m.text) ∧
    (∀ (fo : Option String) (so : Option Int) (qo : Option String) (m : Msg),
      m ∈ listing_page db fo so qo ↔
        m ∈ listing_page db fo none none ∧ m ∈ listing_page db none so none ∧
          m ∈ listing_page db none none qo) ∧
    (∀ (limit offset : Nat) (fo : Option String) (so : Option Int) (qo : Option String),
      (list_messages db limit offset fo so qo).2 = (listing_page db fo so qo).length)

/-- A stored row whose text is `"abc"`. -/
def cexMsg : Msg := ⟨"m1", "+15550001111", "+15550002222", 0, some "abc"⟩

/-! ## Known-answer tests for the hash embedding -/
-- Known-answer test: SHA-256 of `"abc"` (FIPS 180-4 example).
set_option maxRecDepth 100000 in
example : toHex (sha256 (utf8Bytes "abc")) =
    "ba7816bf8f01cfea414140de5dae2223b00361a396177a9cb410ff61f20015ad" := by decide

-- Known-answer test: the RFC 2202-style HMAC-SHA256 test vector.
set_option maxRecDepth 100000 in
example : compute_signature "key" (utf8Bytes "The quick brown fox jumps over the lazy dog") =
    "f7bc83f430538424b13298e6aa6fb143ef4d59a14946175997479dbc2d1a3cd8" := by decide

/-! ## Helper lemmas: the hex digest always has 64 characters -/

theorem beBytes_length (k n : Nat) : (beBytes k n).length = k := by
  induction k generalizing n with
  | zero => rfl
  | succ k ih => simp [beBytes, ih]

theorem sha256Round_length (st : List Nat) (kw : Nat × Nat) :
    (sha256Round st kw).length = st.length := by
  rcases st with _ | ⟨a, _ | ⟨b, _ | ⟨c, _ | ⟨d, _ | ⟨e, _ | ⟨f, _ | ⟨g, _ | ⟨h, _ | ⟨i, t⟩⟩⟩⟩⟩⟩⟩⟩⟩ <;>
    rfl

theorem foldl_sha256Round_length (l : List (Nat × Nat)) (st : List Nat) :
    (l.foldl (fun s kw => sha256Round s kw) st).length = st.length := by
  induction l generalizing st with
  | nil => rfl
  | cons kw l ih => rw [List.foldl_cons, ih, sha256Round_length]

theorem sha256Compress_length (h block : List Nat) :
    (sha256Compress h block).length = h.length := by
  unfold sha256Compress
  rw [List.length_map, List.length_zip, foldl_sha256Round_length, Nat.min_self]

theorem foldl_sha256Compress_length (blocks : List (List Nat)) (h : List Nat) :
    (blocks.foldl sha256Compress h).length = h.length := by
  induction blocks generalizing h with
  | nil => rfl
  | cons b blocks ih => rw [List.foldl_cons, ih, sha256Compress_length]

theorem flatMap_beBytes_length (l : List Nat) :
    (l.flatMap (beBytes 4)).length = 4 * l.length := by
  induction l with
  | nil => rfl
  | cons x l ih =>
    rw [List.flatMap_cons, List.length_append, ih, beBytes_length]
    simp only [List.length_cons]
    omega

theorem sha256_length (msg : List Nat) : (sha256 msg).length = 32 := by
  unfold sha256
  rw [flatMap_beBytes_length, foldl_sha256Compress_length]
  rfl

theorem toHex_length (bytes : List Nat) : (toHex bytes).length = 2 * bytes.length := by
  unfold toHex
  rw [String.length_mk]
  induction bytes with
  | nil => rfl
  | cons b bytes ih =>
    rw [List.flatMap_cons, List.length_append, ih]
    simp [Nat.mul_succ, Nat.add_comm]

theorem compute_signature_length (secret : String) (body : List Nat) :
    (compute_signature secret body).length = 64 := by
  unfold compute_signature
  rw [toHex_length]
  unfold hmacSha256
  rw [sha256_length]

theorem compute_signature_ne_empty (secret : String) (body : List Nat) :
    (compute_signature secret body).isEmpty = false := by
  rcases h : (compute_signature secret body).isEmpty with _ | _
  · rfl
  · have := (String.isEmpty_iff _).mp h
    have hl := compute_signature_length secret body
    rw [this] at hl
    exact absurd hl (by decide)

/-! ## Helper lemmas: the hex digest is ASCII -/

theorem toNat_ofNat_lt (n : Nat) (h : n < 55296) : (Char.ofNat n).toNat = n := by
  unfold Char.ofNat
  rw [dif_pos]
  · rfl
  · left
    exact h

theorem hexDigitChar_ascii (n : Nat) (h : n < 16) : (hexDigitChar n).toNat < 128 := by
  unfold hexDigitChar
  by_cases h10 : n < 10
  · rw [if_pos h10, toNat_ofNat_lt _ (by omega)]
    omega
  · rw [if_neg h10, toNat_ofNat_lt _ (by omega)]
    omega

theorem beBytes_lt (k n : Nat) : ∀ b ∈ beBytes k n, b < 256 := by
  induction k generalizing n with
  | zero =>
    intro b hb
    simp [beBytes] at hb
  | succ k ih =>
    intro b hb
    simp only [beBytes, List.mem_append, List.mem_singleton] at hb
    rcases hb with hb | hb
    · exact ih _ b hb
    · subst hb
      exact Nat.mod_lt _ (by decide)

theorem sha256_lt (msg : List Nat) : ∀ b ∈ sha256 msg, b < 256 := by
  intro b hb
  unfold sha256 at hb
  simp only [List.mem_flatMap] at hb
  obtain ⟨w, -, hb⟩ := hb
  exact beBytes_lt 4 w b hb

theorem toHex_ascii (bytes : List Nat) (h : ∀ b ∈ bytes, b < 256) :
    isAsciiString (toHex bytes) = true := by
  unfold isAsciiString toHex
  rw [List.all_eq_true]
  intro c hc
  simp only [List.mem_flatMap, List.mem_cons, List.not_mem_nil, or_false] at hc
  obtain ⟨b, hb, hc⟩ := hc
  have hblt := h b hb
  rcases hc with hc | hc <;> subst hc
  · exact decide_eq_true (hexDigitChar_ascii _ (by omega))
  · exact decide_eq_true (hexDigitChar_ascii _ (by omega))

theorem compute_signature_ascii (secret : String) (body : List Nat) :
    isAsciiString (compute_signature secret body) = true := by
  unfold compute_signature hmacSha256
  exact toHex_ascii _ (sha256_lt _)

theorem ne_compute_of_nonascii (secret : String) (body : List Nat) (s : String)
    (h : isAsciiString s = false) : s ≠ compute_signature secret body := fun e => by
  rw [e, compute_signature_ascii] at h
  exact absurd h (by decide)

theorem nonascii_not_empty (s : String) (h : isAsciiString s = false) :
    s.isEmpty = false := by
  rcases he : s.isEmpty with _ | _
  · rfl
  · rw [(String.isEmpty_iff _).mp he] at h
    exact absurd h (by decide)

theorem verify_signature_eq (secret : String) (body : List Nat) (sig : String) :
    verify_signature secret body sig =
      if isAsciiString sig = true then .ok (compute_signature secret body == sig)
      else .error () := by
  unfold verify_signature compare_digest
  rw [compute_signature_ascii secret body]
  rcases ha : isAsciiString sig with _ | _ <;> simp [ha]

theorem signature_validator_nonascii (secret : String) (body : List Nat) (sig : String)
    (hsec : 0 < secret.length) (hna : isAsciiString sig = false) :
    signature_validator ⟨some secret⟩ (some sig) body = .error .serverError := by
  simp [signature_validator, nonascii_not_empty sig hna, is_webhook_secret_configured,
    hsec, verify_signature_eq, hna]

theorem post_webhook_nonascii (parseJson : List Nat → Option Payload)
    (parseTs : TsValue → Option Int) (secret : String) (sig : String)
    (rawBody : List Nat) (db : List Msg)
    (hsec : 0 < secret.length) (hna : isAsciiString sig = false) :
    post_webhook parseJson parseTs ⟨some secret⟩ (some sig) rawBody db =
      (.serverError, db) := by
  rw [post_webhook, signature_validator_nonascii secret rawBody sig hsec hna]

theorem signature_validator_correct (secret : String) (body : List Nat)
    (hsec : 0 < secret.length) :
    signature_validator ⟨some secret⟩ (some (compute_signature secret body)) body =
      .ok body := by
  simp [signature_validator, compute_signature_ne_empty, is_webhook_secret_configured,
    hsec, verify_signature_eq, compute_signature_ascii]

/-! ## Helper lemmas: payload validation -/

theorem model_validate_some (parseTs : TsValue → Option Int) (p : Payload) (m : Msg)
    (hv : model_validate parseTs p = some m) :
    m.message_id = p.message_id ∧ m.sender = p.from_ ∧ m.recipient = p.to_ ∧
    m.text = p.text ∧ e164_match p.from_ = true ∧ e164_match p.to_ = true ∧
    ts_z_guard p.ts = true ∧ parseTs p.ts = some m.ts := by
  unfold model_validate at hv
  rcases hp : parseTs p.ts with _ | t
  · rw [hp] at hv
    split_ifs at hv
  · rw [hp] at hv
    split_ifs at hv with h1 h2 h3 h4 h5
    simp at hv
    subst hv
    simp at h2 h3 h4
    exact ⟨rfl, rfl, rfl, rfl, h2, h3, h4, rfl⟩

/-! ## Claim theorems: webhook ingestion and authentication -/

set_option maxRecDepth 10000 in
/-- C1: for every valid payload with a correct signature, ingesting it twice
through `POST /webhook` yields `200 ok` both times; the first call stores the
row, the second call leaves the store unchanged, and afterwards exactly one
stored row carries the payload's `message_id`. -/
theorem C1_idempotent_ingest
    (parseJson : List Nat → Option Payload) (parseTs : TsValue → Option Int)
    (secret : String) (rawBody : List Nat) (db : List Msg) (p : Payload) (m : Msg)
    (hsec : 0 < secret.length)
    (hjson : parseJson rawBody = some p)
    (hv : model_validate parseTs p = some m)
    (hfresh : db.countP (fun r => r.message_id == p.message_id) = 0) :
    post_webhook parseJson parseTs ⟨some secret⟩
        (some (compute_signature secret rawBody)) rawBody db = (.ok, db ++ [m]) ∧
    post_webhook parseJson parseTs ⟨some secret⟩
        (some (compute_signature secret rawBody)) rawBody (db ++ [m]) = (.ok, db ++ [m]) ∧
    (db ++ [m]).countP (fun r => r.message_id == p.message_id) = 1 := by
  obtain ⟨hid, -, -, -, -, -, -, -⟩ := model_validate_some parseTs p m hv
  have hval : ∀ store : List Msg, post_webhook parseJson parseTs ⟨some secret⟩
      (some (compute_signature secret rawBody)) rawBody store =
      ingest_message parseTs store p := by
    intro store
    rw [post_webhook, signature_validator_correct secret rawBody hsec]
    simp [hjson]
  have hany : db.any (fun r => r.message_id == m.message_id) = false := by
    rcases h : db.any (fun r => r.message_id == m.message_id) with _ | _
    · rfl
    · exfalso
      obtain ⟨x, hx, hpx⟩ := List.any_eq_true.mp h
      rw [hid] at hpx
      exact List.countP_eq_zero.mp hfresh x hx hpx
  refine ⟨?_, ?_, ?_⟩
  · rw [hval db]
    simp [ingest_message, hv, hany]
  · rw [hval (db ++ [m])]
    simp [ingest_message, hv]
  · rw [List.countP_append, hfresh]
    simp [List.countP_cons, hid]

/-- C2 counterexample: the claim as stated is false.  Headers are
latin-1-decoded strings, so a non-ASCII `X-Signature` such as `"ÿ"` can
arrive; it differs from the (ASCII hex) digest, yet `hmac.compare_digest`
raises `TypeError` on it and the request is answered 500, not 401. -/
theorem C2_counterexample : ¬ C2Stated := fun h => by
  have h2 := h.2 exParseJsonNone exParseTs "k" (some "ÿ") [] [] (by decide)
    (fun he => ne_compute_of_nonascii "k" [] "ÿ" (by decide) (Option.some.inj he))
  rw [show (post_webhook exParseJsonNone exParseTs ⟨some "k"⟩ (some "ÿ") [] []).1 =
      .serverError from by rw [post_webhook_nonascii _ _ _ _ _ _ (by decide) (by decide)]] at h2
  exact absurd h2 (by decide)

/-- C2 amended: `verify_signature` succeeds with `true` exactly when the
provided signature equals the recomputed hex HMAC-SHA256 digest; a
`POST /webhook` whose `X-Signature` header is absent, or ASCII and different
from the digest, is answered `401 "invalid signature"` no matter what the
payload contains — while a non-ASCII header makes `hmac.compare_digest` raise
`TypeError`, and the request is answered 500. -/
theorem C2_amended_verify :
    (∀ (secret : String) (body : List Nat) (sig : String),
      verify_signature secret body sig = .ok true ↔ sig = compute_signature secret body) ∧
    (∀ (parseJson : List Nat → Option Payload) (parseTs : TsValue → Option Int)
      (secret : String) (xSignature : Option String) (rawBody : List Nat) (db : List Msg),
      0 < secret.length →
      xSignature ≠ some (compute_signature secret rawBody) →
      (∀ s, xSignature = some s → isAsciiString s = true) →
      (post_webhook parseJson parseTs ⟨some secret⟩ xSignature rawBody db).1 =
        .httpError 401 "invalid signature") ∧
    (∀ (parseJson : List Nat → Option Payload) (parseTs : TsValue → Option Int)
      (secret : String) (sig : String) (rawBody : List Nat) (db : List Msg),
      0 < secret.length →
      isAsciiString sig = false →
      (post_webhook parseJson parseTs ⟨some secret⟩ (some sig) rawBody db).1 =
        .serverError) := by
  refine ⟨?_, ?_, ?_⟩
  · intro secret body sig
    rw [verify_signature_eq]
    rcases ha : isAsciiString sig with _ | _
    · rw [if_neg (by simp)]
      constructor
      · intro h
        exact absurd h (by simp)
      · intro h
        exact absurd h (ne_compute_of_nonascii secret body sig ha)
    · rw [if_pos rfl]
      constructor
      · intro h
        exact (beq_iff_eq.mp (Except.ok.inj h)).symm
      · intro h
        rw [h, show (compute_signature secret body == compute_signature secret body) = true
          from beq_self_eq_true _]
  · intro parseJson parseTs secret xSignature rawBody db hsec hne hascii
    rcases xSignature with _ | sig
    · simp [post_webhook, signature_validator]
    · have hsig : sig ≠ compute_signature secret rawBody := fun e => hne (by rw [e])
      have ha : isAsciiString sig = true := hascii sig rfl
      have hbeq : (compute_signature secret rawBody == sig) = false :=
        beq_eq_false_iff_ne.mpr (Ne.symm hsig)
      rcases hs : sig.isEmpty with _ | _
      · simp [post_webhook, signature_validator, hs, is_webhook_secret_configured, hsec,
          verify_signature_eq, ha, hbeq]
      · simp [post_webhook, signature_validator, hs]
  · intro parseJson parseTs secret sig rawBody db hsec hna
    rw [post_webhook_nonascii parseJson parseTs secret sig rawBody db hsec hna]

/-- C2 witness: the verify-iff at concrete inputs, a 401 for a request with
no header, and a 500 for a concrete non-ASCII header. -/
theorem C2_witness :
    (verify_signature "k" [] "x" = .ok true ↔ "x" = compute_signature "k" []) ∧
    (post_webhook exParseJsonNone exParseTs ⟨some "k"⟩ none [] []).1 =
      .httpError 401 "invalid signature" ∧
    (post_webhook exParseJsonNone exParseTs ⟨some "k"⟩ (some "ÿ") [] []).1 =
      .serverError :=
  ⟨C2_amended_verify.1 "k" [] "x",
   C2_amended_verify.2.1 exParseJsonNone exParseTs "k" none [] []
     (by decide) (by simp) (fun s hs => by simp at hs),
   C2_amended_verify.2.2 exParseJsonNone exParseTs "k" "ÿ" [] []
     (by decide) (by decide)⟩

/-- C3 counterexample: the claim as stated is false.  A mismatching
non-ASCII signature (reachable, since headers are latin-1-decoded) makes
`hmac.compare_digest` raise `TypeError`: the response is a 500, observably
different from the 401 the other two conditions produce. -/
theorem C3_counterexample : ¬ C3Stated := fun h => by
  have h1 := h.2.2 "k" [] "ÿ" (by decide) (ne_compute_of_nonascii "k" [] "ÿ" (by decide))
  rw [signature_validator_nonascii "k" [] "ÿ" (by decide) (by decide)] at h1
  exact absurd h1 (by simp)

/-- C3 amended: missing `X-Signature` header, unconfigured webhook secret,
and an ASCII signature mismatch all produce the identical response — `401`
with detail `"invalid signature"` — so none of these three is
distinguishable; a non-ASCII provided signature, however, makes
`hmac.compare_digest` raise `TypeError` and the request is answered 500. -/
theorem C3_amended_auth_failures :
    (∀ (settings : Settings) (body : List Nat),
      signature_validator settings none body =
        .error (.httpError 401 "invalid signature")) ∧
    (∀ (settings : Settings) (body : List Nat) (sig : String),
      is_webhook_secret_configured settings = false →
      signature_validator settings (some sig) body =
        .error (.httpError 401 "invalid signature")) ∧
    (∀ (secret : String) (body : List Nat) (sig : String),
      0 < secret.length →
      isAsciiString sig = true →
      sig ≠ compute_signature secret body →
      signature_validator ⟨some secret⟩ (some sig) body =
        .error (.httpError 401 "invalid signature")) ∧
    (∀ (secret : String) (body : List Nat) (sig : String),
      0 < secret.length →
      isAsciiString sig = false →
      signature_validator ⟨some secret⟩ (some sig) body = .error .serverError) := by
  refine ⟨?_, ?_, ?_, ?_⟩
  · intro settings body
    simp [signature_validator]
  · intro settings body sig hconf
    rcases hs : sig.isEmpty with _ | _ <;>
      simp [signature_validator, hs, hconf]
  · intro secret body sig hsec ha hne
    have hbeq : (compute_signature secret body == sig) = false :=
      beq_eq_false_iff_ne.mpr (Ne.symm hne)
    rcases hs : sig.isEmpty with _ | _
    · simp [signature_validator, hs, is_webhook_secret_configured, hsec,
        verify_signature_eq, ha, hbeq]
    · simp [signature_validator, hs]
  · intro secret body sig hsec hna
    exact signature_validator_nonascii secret body sig hsec hna

/-- C3 witness: the unconfigured-secret and ASCII-mismatch conditions at
concrete inputs, both yielding the identical 401 error, and a concrete
non-ASCII signature yielding the distinguishable 500. -/
theorem C3_witness :
    signature_validator ⟨none⟩ (some "x") [] =
      .error (.httpError 401 "invalid signature") ∧
    signature_validator ⟨some "k"⟩ (some "x") [] =
      .error (.httpError 401 "invalid signature") ∧
    signature_validator ⟨some "k"⟩ (some "ÿ") [] = .error .serverError :=
  ⟨C3_amended_auth_failures.2.1 ⟨none⟩ [] "x" (by decide),
   C3_amended_auth_failures.2.2.1 "k" [] "x" (by decide) (by decide)
     (fun h => by
       have hl := congrArg String.length h
       rw [compute_signature_length] at hl
       exact absurd hl (by decide)),
   C3_amended_auth_failures.2.2.2 "k" [] "ÿ" (by decide) (by decide)⟩

/-- C5: the claim states that a correctly signed payload whose raw `ts` text
does not end in `Z` is answered 422 with nothing stored.  The code enforces
this only for string-typed `ts` (`validate_ts_utc` guards on
`isinstance(v, str)`); a payload whose `ts` arrives as a JSON number — raw
text the decimal digits, not ending in `Z` — skips the check, pydantic
accepts it as a Unix timestamp, and the row is stored with `200 ok`,
contradicting the field's own description ("must end with Z").  This theorem
evaluates the embedded handler at that failing input. -/
theorem C5_numeric_ts_bypass :
    endsWithZ (tsRawText exNumericTsPayload.ts) = false ∧
    ingest_message exParseTs [] exNumericTsPayload = (.ok, [exNumericMsg]) := by
  constructor
  · decide
  · decide

/-- C9: supplying `from` or `q` as the empty string is exactly the same as
omitting that parameter — the handler tests truthiness, not presence — so
`from=` returns all messages rather than those with an empty sender, and `q=`
applies no text filter. -/
theorem C9_empty_string_filters_ignored
    (db : List Msg) (limit offset : Nat) (since : Option Int)
    (q fo : Option String) :
    list_messages db limit offset (some "") since q =
      list_messages db limit offset none since q ∧
    list_messages db limit offset fo since (some "") =
      list_messages db limit offset fo since none := by
  constructor
  · have hp : passes_filters (some "") since q = passes_filters none since q :=
      funext fun m => by
        simp [passes_filters, strTruthy, show String.isEmpty "" = true from rfl]
    simp only [list_messages, hp]
  · have hp : passes_filters fo since (some "") = passes_filters fo since none :=
      funext fun m => by
        simp [passes_filters, strTruthy, show String.isEmpty "" = true from rfl]
    simp only [list_messages, hp]




/-- C1 witness: ingesting the example payload twice with its correct signature
on an empty store — both calls answer `ok`, the store ends with exactly the
one row. -/
theorem C1_witness :
    post_webhook exParseJsonGood exParseTs ⟨some "k"⟩
        (some (compute_signature "k" [])) [] [] = (.ok, [exGoodMsg]) ∧
    post_webhook exParseJsonGood exParseTs ⟨some "k"⟩
        (some (compute_signature "k" [])) [] [exGoodMsg] = (.ok, [exGoodMsg]) ∧
    [exGoodMsg].countP (fun r => r.message_id == exGoodPayload.message_id) = 1 :=
  have h := C1_idempotent_ingest exParseJsonGood exParseTs "k" [] [] exGoodPayload
    exGoodMsg (by decide) rfl (by decide) (by decide)
  ⟨h.1, h.2.1, h.2.2⟩

/-! ## Claim C4: the E.164 validation pattern -/

theorem pyDigit_ascii (c : Char) (h : c.toNat < 128) : pyDigit c = c.isDigit := by
  unfold pyDigit
  have h1 : decide (0x660 ≤ c.toNat) = false := decide_eq_false (by omega)
  have h2 : decide (0x6F0 ≤ c.toNat) = false := decide_eq_false (by omega)
  have h3 : decide (0x966 ≤ c.toNat) = false := decide_eq_false (by omega)
  rw [h1, h2, h3]
  simp

theorem all_pyDigit_ascii (l : List Char) (h : ∀ c ∈ l, c.toNat < 128) :
    l.all pyDigit = l.all Char.isDigit := by
  induction l with
  | nil => rfl
  | cons y ys ih =>
    rw [List.all_cons, List.all_cons, pyDigit_ascii y (h y (List.mem_cons_self _ _)),
      ih (fun c hc => h c (List.mem_cons_of_mem _ hc))]

theorem e164_match_ascii (s : String) (hascii : ∀ c ∈ s.data, c.toNat < 128)
    (hnl : s.data.getLast? ≠ some '\n') :
    e164_match s = e164_claim_pattern s := by
  unfold e164_match e164_claim_pattern
  rw [if_neg hnl]
  rcases hd : s.data with _ | ⟨c, _ | ⟨d, rest⟩⟩
  · rfl
  · by_cases hc : c = '+' <;> simp [hc]
  · rw [hd] at hascii
    by_cases hc : c = '+'
    · subst hc
      simp only []
      rw [all_pyDigit_ascii rest (fun x hx => hascii x (by simp [hx]))]
    · simp [hc]

theorem model_validate_none_of_bad_e164 (parseTs : TsValue → Option Int) (p : Payload)
    (h : e164_match p.from_ = false ∨ e164_match p.to_ = false) :
    model_validate parseTs p = none := by
  unfold model_validate
  split_ifs with h1 h2 h3 h4 h5 <;> try rfl
  all_goals
    exfalso
    rcases h with h | h
    · simp [h] at h2
    · simp [h] at h3


/-- C4 counterexample: the claim as stated is false.  Python's anchored
`.match` lets `$` match just before one trailing newline, so the code accepts
the string made of `+12` followed by a newline, which does not fully match the
claimed pattern. -/
theorem C4_counterexample : ¬ C4Stated := fun h =>
  absurd ((h.1 "+12\n").mp (by decide)) (by decide)

/-- C4 amended: restricted to ASCII strings without a trailing newline, the
validation accepts exactly the strings matching `+[1-9][0-9]{1,14}` — the
code's Python regex further admits non-ASCII Unicode decimal digits (`\d`)
and one trailing newline (`$` before a final newline), which the restriction
excludes — and every payload whose ASCII, newline-free `from` or `to` does
not match the pattern is answered 422 with the store unchanged. -/
theorem C4_amended_e164 :
    (∀ s : String, (∀ c ∈ s.data, c.toNat < 128) → s.data.getLast? ≠ some '\n' →
      (e164_match s = true ↔ e164_claim_pattern s = true)) ∧
    (∀ (parseTs : TsValue → Option Int) (db : List Msg) (p : Payload),
      (∀ c ∈ p.from_.data, c.toNat < 128) → p.from_.data.getLast? ≠ some '\n' →
      (∀ c ∈ p.to_.data, c.toNat < 128) → p.to_.data.getLast? ≠ some '\n' →
      (e164_claim_pattern p.from_ = false ∨ e164_claim_pattern p.to_ = false) →
      (ingest_message parseTs db p).1.statusCode = 422 ∧
      (ingest_message parseTs db p).2 = db) := by
  constructor
  · intro s hascii hnl
    rw [e164_match_ascii s hascii hnl]
  · intro parseTs db p hfa hfn hta htn h
    have h2 : e164_match p.from_ = false ∨ e164_match p.to_ = false := by
      rcases h with h | h
      · exact Or.inl ((e164_match_ascii p.from_ hfa hfn).trans h)
      · exact Or.inr ((e164_match_ascii p.to_ hta htn).trans h)
    rw [ingest_message, model_validate_none_of_bad_e164 parseTs p h2]
    exact ⟨rfl, rfl⟩


/-- C4 witness: the acceptance equivalence at a concrete valid number, and a
422 with empty store for a concrete ASCII payload with an invalid sender. -/
theorem C4_witness :
    (e164_match "+14155550100" = true ↔ e164_claim_pattern "+14155550100" = true) ∧
    (ingest_message exParseTs [] exBadFromPayload).1.statusCode = 422 ∧
    (ingest_message exParseTs [] exBadFromPayload).2 = [] :=
  ⟨C4_amended_e164.1 "+14155550100" (by decide) (by decide),
   C4_amended_e164.2 exParseTs [] exBadFromPayload (by decide) (by decide)
     (by decide) (by decide) (Or.inl (by decide))⟩

/-! ## Claim C7: listing order -/



theorem page_sublist (db : List Msg) (limit offset : Nat)
    (fo : Option String) (so : Option Int) (qo : Option String) :
    ((list_messages db limit offset fo so qo).1).Sublist
      ((db.filter (passes_filters fo so qo)).insertionSort msgOrder) := by
  simp only [list_messages]
  exact (List.take_sublist _ _).trans (List.drop_sublist _ _)

theorem mem_page (db : List Msg) (limit offset : Nat)
    (fo : Option String) (so : Option Int) (qo : Option String) (m : Msg)
    (hm : m ∈ (list_messages db limit offset fo so qo).1) :
    m ∈ db ∧ passes_filters fo so qo m = true := by
  have h1 := (page_sublist db limit offset fo so qo).subset hm
  have h2 := (List.perm_insertionSort msgOrder _).mem_iff.mp h1
  exact List.mem_filter.mp h2

/-- C7: every `GET /messages` response, under any filters and pagination, is
non-decreasing in the lexicographic order on `(ts, message_id)` — the
deterministic total order `ORDER BY ts ASC, message_id ASC` imposes. -/
theorem C7_listing_sorted (db : List Msg) (limit offset : Nat)
    (fo : Option String) (so : Option Int) (qo : Option String) :
    List.Pairwise (fun a b => a.ts < b.ts ∨ (a.ts = b.ts ∧ a.message_id ≤ b.message_id))
      (list_messages db limit offset fo so qo).1 :=
  List.Pairwise.sublist (page_sublist db limit offset fo so qo)
    (List.sorted_insertionSort msgOrder (db.filter (passes_filters fo so qo)))

/-! ## Claim C10: rows with absent text never match a `q` filter -/

theorem isEmpty_false_of_ne (s : String) (h : s ≠ "") : s.isEmpty = false := by
  rcases he : s.isEmpty with _ | _
  · rfl
  · exact absurd ((String.isEmpty_iff _).mp he) h

/-- C10: a stored message whose `text` is absent (SQL `NULL`) is never
returned by a listing with a non-empty `q` filter, whatever `q` is — `NULL`
never satisfies `ILIKE`, so such rows are excluded rather than treated as
empty strings. -/
theorem C10_null_text_never_matches_q (db : List Msg) (limit offset : Nat)
    (fo : Option String) (so : Option Int) (qs : String) (m : Msg)
    (hq : qs ≠ "")
    (hm : m ∈ (list_messages db limit offset fo so (some qs)).1) :
    m.text ≠ none := by
  have h3 := (mem_page db limit offset fo so (some qs) m hm).2
  unfold passes_filters at h3
  have hq2 : strTruthy (some qs) = true := by
    simp [strTruthy, isEmpty_false_of_ne qs hq]
  rw [hq2] at h3
  simp only [if_true, Bool.and_eq_true] at h3
  intro hnone
  have := h3.2
  rw [hnone] at this
  simp [text_ilike] at this

/-- C10 witness: a store holding the example row, the concrete filter
`q = "ell"` that matches its text, and the row returned by the listing. -/
theorem C10_witness : exGoodMsg.text ≠ none :=
  C10_null_text_never_matches_q [exGoodMsg] 50 0 none none "ell" exGoodMsg
    (by decide) (by decide)

/-! ## Claim C8: the capped duration buffer -/

theorem lookup_setAssoc {α : Type} (l : List (String × α)) (k q : String) (v : α) :
    (setAssoc l k v).lookup q = if q = k then some v else l.lookup q := by
  induction l with
  | nil =>
    by_cases h : q = k
    · simp [setAssoc, List.lookup, h]
    · have hb : (q == k) = false := beq_eq_false_iff_ne.mpr h
      simp [setAssoc, List.lookup, h, hb]
  | cons p rest ih =>
    rcases p with ⟨k1, v1⟩
    by_cases h1 : k1 = k
    · subst h1
      by_cases h : q = k1
      · simp [setAssoc, List.lookup, h]
      · have hb : (q == k1) = false := beq_eq_false_iff_ne.mpr h
        simp [setAssoc, List.lookup, h, hb]
    · by_cases h : q = k1
      · subst h
        have hqk : q ≠ k := h1
        simp [setAssoc, h1, List.lookup, hqk]
      · have hb : (q == k1) = false := beq_eq_false_iff_ne.mpr h
        simp [setAssoc, h1, List.lookup, hb, ih]

theorem lastN_length_le (n : Nat) (l : List α) : (lastN n l).length ≤ n := by
  unfold lastN
  rw [List.length_drop]
  omega

theorem lastN_snoc (n : Nat) (h : List α) (d : α) :
    lastN n (lastN n h ++ [d]) = lastN n (h ++ [d]) := by
  unfold lastN
  rcases le_or_lt h.length n with hle | hlt
  · have h0 : h.length - n = 0 := by omega
    rw [h0, List.drop_zero]
  · rcases Nat.eq_zero_or_pos n with hn | hn
    · subst hn
      rw [List.drop_eq_nil_of_le (by simp), List.drop_eq_nil_of_le (by simp)]
    · have hlen : (List.drop (h.length - n) h).length = n := by
        rw [List.length_drop]; omega
      rw [List.length_append, List.length_append, hlen]
      rw [List.drop_append_eq_append_drop, List.drop_append_eq_append_drop, List.drop_drop, hlen]
      simp only [List.length_singleton]
      have eA : h.length - n + (n + 1 - n) = h.length + 1 - n := by omega
      have eB : n + 1 - n - n = h.length + 1 - n - h.length := by omega
      rw [eA, eB]

theorem record_durBuffer (m : Metrics) (mth pth : String) (st : Nat) (d : Int) (k : String) :
    durBuffer (record_request m mth pth st d) k =
      if k = durKey mth pth then lastN 1000 (durBuffer m (durKey mth pth) ++ [d])
      else durBuffer m k := by
  unfold record_request durBuffer
  simp only []
  rw [lookup_setAssoc]
  by_cases h : k = durKey mth pth
  · rw [if_pos h, if_pos h]
    unfold lastN
    by_cases hl :
        (((m.http_request_duration_seconds.lookup (durKey mth pth)).getD []) ++ [d]).length > 1000
    · rw [if_pos hl, Option.getD_some]
    · rw [if_neg hl]
      have h0 :
          ((m.http_request_duration_seconds.lookup (durKey mth pth)).getD [] ++ [d]).length
            - 1000 = 0 := by omega
      rw [h0, List.drop_zero, Option.getD_some]
  · rw [if_neg h, if_neg h]

theorem foldl_record_durBuffer (evs : List ReqEvent) (m : Metrics) (K : String) (h : List Int)
    (hinv : durBuffer m K = lastN 1000 h) :
    durBuffer
        (evs.foldl (fun mm e => record_request mm e.method e.path e.status e.duration) m) K =
      lastN 1000
        (h ++ (evs.filter (fun e => durKey e.method e.path == K)).map (fun e => e.duration)) := by
  induction evs generalizing m h with
  | nil => simpa using hinv
  | cons e evs ih =>
    rw [List.foldl_cons]
    by_cases hk : durKey e.method e.path = K
    · have h1 : durBuffer (record_request m e.method e.path e.status e.duration) K =
          lastN 1000 (h ++ [e.duration]) := by
        rw [record_durBuffer, if_pos hk.symm, hk, hinv, lastN_snoc]
      rw [ih _ _ h1]
      have hf : (e :: evs).filter (fun e => durKey e.method e.path == K) =
          e :: evs.filter (fun e => durKey e.method e.path == K) := by
        simp [List.filter_cons, hk]
      rw [hf, List.map_cons, List.append_assoc, List.singleton_append]
    · have h1 : durBuffer (record_request m e.method e.path e.status e.duration) K =
          lastN 1000 h := by
        rw [record_durBuffer, if_neg (fun e2 => hk e2.symm)]
        exact hinv
      rw [ih _ _ h1]
      have hf : (e :: evs).filter (fun e => durKey e.method e.path == K) =
          evs.filter (fun e => durKey e.method e.path == K) := by
        simp [List.filter_cons, hk]
      rw [hf]

/-- C8: for every `(method, path)` key and any sequence of `record_request`
calls from the empty state, the stored duration buffer holds at most 1000
samples and is exactly the most recent samples recorded under that key (older
samples are dropped, never aggregated); the 1000-sample bound is an invariant
every single `record_request` call preserves. -/
theorem C8_duration_buffer_capped :
    (∀ (evs : List ReqEvent) (mth pth : String),
      (durBuffer (run_requests evs) (durKey mth pth)).length ≤ 1000 ∧
      durBuffer (run_requests evs) (durKey mth pth) =
        lastN 1000
          ((evs.filter (fun e => durKey e.method e.path == durKey mth pth)).map
            (fun e => e.duration))) ∧
    (∀ (m : Metrics) (mth pth : String) (st : Nat) (d : Int) (k : String),
      (durBuffer m k).length ≤ 1000 →
      (durBuffer (record_request m mth pth st d) k).length ≤ 1000) := by
  constructor
  · intro evs mth pth
    have he := foldl_record_durBuffer evs initMetrics (durKey mth pth) [] (by rfl)
    rw [List.nil_append] at he
    refine ⟨?_, he⟩
    rw [run_requests, he]
    exact lastN_length_le 1000 _
  · intro m mth pth st d k hlen
    rw [record_durBuffer]
    by_cases hk : k = durKey mth pth
    · rw [if_pos hk]
      exact lastN_length_le 1000 _
    · rw [if_neg hk]
      exact hlen

/-- C8 witness: one recorded request from the empty state keeps the bound. -/
theorem C8_witness :
    (durBuffer (record_request initMetrics "GET" "/messages" 200 5) "GET_/messages").length
      ≤ 1000 :=
  C8_duration_buffer_capped.2 initMetrics "GET" "/messages" 200 5 "GET_/messages" (by decide)

/-! ## Claim C6: filter semantics of the listing -/

theorem toLower_eq_self_or (c : Char) :
    Char.toLower c = c ∨ (97 ≤ (Char.toLower c).toNat ∧ (Char.toLower c).toNat ≤ 122) := by
  simp only [Char.toLower]
  by_cases h : c.toNat ≥ 65 ∧ c.toNat ≤ 90
  · right
    rw [if_pos h]
    have : (Char.ofNat (c.toNat + 32)).toNat = c.toNat + 32 := by
      unfold Char.ofNat
      rw [dif_pos]
      · rfl
      · left
        exact Nat.lt_of_le_of_lt (by omega : c.toNat + 32 ≤ 122) (by decide)
    omega
  · left
    rw [if_neg h]

theorem toLower_wild (c : Char) (h : c ≠ '%' ∧ c ≠ '_') :
    c.toLower ≠ '%' ∧ c.toLower ≠ '_' := by
  rcases toLower_eq_self_or c with he | hr
  · rw [he]
    exact h
  · constructor
    · intro e
      have h2 := congrArg Char.toNat e
      rw [show Char.toNat '%' = 37 from rfl] at h2
      omega
    · intro e
      have h2 := congrArg Char.toNat e
      rw [show Char.toNat '_' = 95 from rfl] at h2
      omega

theorem noWild_lower (l : List Char) (hw : ∀ c ∈ l, c ≠ '%' ∧ c ≠ '_') :
    ∀ c ∈ lowerChars l, c ≠ '%' ∧ c ≠ '_' := by
  intro c hc
  rw [lowerChars, List.mem_map] at hc
  obtain ⟨a, ha, rfl⟩ := hc
  exact toLower_wild a (hw a ha)

theorem likeMatch_append_percent :
    ∀ (lit : List Char), (∀ c ∈ lit, c ≠ '%' ∧ c ≠ '_') →
      ∀ cs, likeMatch (lit ++ ['%']) cs = true ↔ lit <+: cs := by
  intro lit
  induction lit with
  | nil =>
    intro _ cs
    constructor
    · intro _
      exact List.nil_prefix
    · intro _
      show likeMatch ('%' :: []) cs = true
      unfold likeMatch
      rw [if_pos rfl]
      apply List.any_eq_true.mpr
      refine ⟨[], (List.mem_tails _ _).mpr List.nil_suffix, ?_⟩
      rfl
  | cons c lit ih =>
    intro hw cs
    obtain ⟨hc1, hc2⟩ := hw c (List.mem_cons_self _ _)
    have ihw : ∀ x ∈ lit, x ≠ '%' ∧ x ≠ '_' := fun x hx => hw x (List.mem_cons_of_mem _ hx)
    rw [List.cons_append]
    show likeMatch (c :: (lit ++ ['%'])) cs = true ↔ _
    unfold likeMatch
    rw [if_neg hc1]
    rcases cs with _ | ⟨c2, cs2⟩
    · simp
    · rw [decide_eq_false hc2]
      simp only [Bool.false_or, Bool.and_eq_true, beq_iff_eq]
      rw [ih ihw cs2, List.cons_prefix_cons]
theorem likeMatch_wrap (lit : List Char) (hw : ∀ c ∈ lit, c ≠ '%' ∧ c ≠ '_')
    (cs : List Char) :
    likeMatch ('%' :: (lit ++ ['%'])) cs = true ↔ lit <:+: cs := by
  unfold likeMatch
  rw [if_pos rfl, List.any_eq_true]
  constructor
  · rintro ⟨t, ht, hm⟩
    rw [List.mem_tails _ _] at ht
    rw [likeMatch_append_percent lit hw t] at hm
    exact List.infix_iff_prefix_suffix.mpr ⟨t, hm, ht⟩
  · intro hinf
    obtain ⟨t, hp, hs⟩ := List.infix_iff_prefix_suffix.mp hinf
    exact ⟨t, (List.mem_tails _ _).mpr hs, (likeMatch_append_percent lit hw t).mpr hp⟩

theorem text_ilike_eq_contains (qs : String) (hw : noWildcards qs) (o : Option String) :
    (text_ilike qs o = true ↔ textContainsCI qs o) := by
  rcases o with _ | t
  · simp [text_ilike, textContainsCI]
  · show likeMatch (lowerChars ('%' :: qs.data ++ ['%'])) (lowerChars t.data) = true ↔ _
    have hpat : lowerChars ('%' :: qs.data ++ ['%']) = '%' :: (lowerChars qs.data ++ ['%']) := by
      unfold lowerChars
      simp [show Char.toLower '%' = '%' from by decide]
    rw [hpat, likeMatch_wrap (lowerChars qs.data) (noWild_lower qs.data hw) (lowerChars t.data)]
    exact Iff.rfl

theorem mem_listing_page (db : List Msg) (fo : Option String) (so : Option Int)
    (qo : Option String) (m : Msg) :
    m ∈ listing_page db fo so qo ↔ m ∈ db ∧ passes_filters fo so qo m = true := by
  constructor
  · exact mem_page db db.length 0 fo so qo m
  · rintro ⟨h1, h2⟩
    unfold listing_page
    simp only [list_messages]
    rw [List.drop_zero, List.take_of_length_le]
    · exact (List.perm_insertionSort msgOrder _).mem_iff.mpr (List.mem_filter.mpr ⟨h1, h2⟩)
    · rw [List.length_insertionSort]
      exact List.length_filter_le _ db

theorem passes_from_only (X : String) (hX : X ≠ "") (m : Msg) :
    (passes_filters (some X) none none m = true ↔ m.sender = X) := by
  unfold passes_filters strTruthy
  simp [isEmpty_false_of_ne X hX]

theorem passes_since_only (T : Int) (m : Msg) :
    (passes_filters none (some T) none m = true ↔ T ≤ m.ts) := by
  unfold passes_filters strTruthy
  simp

theorem passes_q_only (qs : String) (hq : qs ≠ "") (hw : noWildcards qs) (m : Msg) :
    (passes_filters none none (some qs) m = true ↔ textContainsCI qs m.text) := by
  unfold passes_filters strTruthy
  simp only [isEmpty_false_of_ne qs hq, Bool.not_false, if_true, Option.getD_some,
    Bool.true_and, if_neg, Bool.and_eq_true]
  simp
  exact text_ilike_eq_contains qs hw m.text

theorem passes_decompose (fo : Option String) (so : Option Int) (qo : Option String) (m : Msg) :
    passes_filters fo so qo m =
      (passes_filters fo none none m && passes_filters none so none m &&
        passes_filters none none qo m) := by
  unfold passes_filters strTruthy
  rcases fo with _ | f <;> rcases so with _ | t <;> rcases qo with _ | q <;>
    simp [Bool.and_assoc]



/-- C6 counterexample: the claim as stated is false.  The handler passes `q`
into `ILIKE '%q%'` without escaping, so `q = "%"` acts as a wildcard: the
listing returns the row with text `"abc"` although `"abc"` does not contain
the string `"%"`. -/
theorem C6_counterexample : ¬ C6Stated := fun h =>
  absurd (((h [cexMsg] "x" 0 "%").2.2.1 cexMsg).mp (by decide)) (by decide)

/-- C6 amended: the same statement with the two restrictions the code's
truthiness test and unescaped `LIKE` pattern force — the `from` filter value
is non-empty, and `q` is non-empty and free of the `LIKE` wildcards `%` and
`_`.  Combination-as-intersection and the `total` count hold unrestricted. -/
theorem C6_amended_filters (db : List Msg) (X : String) (T : Int) (qs : String)
    (hX : X ≠ "") (hq : qs ≠ "") (hw : noWildcards qs) :
    (∀ m, m ∈ listing_page db (some X) none none ↔ m ∈ db ∧ m.sender = X) ∧
    (∀ m, m ∈ listing_page db none (some T) none ↔ m ∈ db ∧ T ≤ m.ts) ∧
    (∀ m, m ∈ listing_page db none none (some qs) ↔ m ∈ db ∧ textContainsCI qs m.text) ∧
    (∀ (fo : Option String) (so : Option Int) (qo : Option String) (m : Msg),
      m ∈ listing_page db fo so qo ↔
        m ∈ listing_page db fo none none ∧ m ∈ listing_page db none so none ∧
          m ∈ listing_page db none none qo) ∧
    (∀ (limit offset : Nat) (fo : Option String) (so : Option Int) (qo : Option String),
      (list_messages db limit offset fo so qo).2 = (listing_page db fo so qo).length) := by
  refine ⟨?_, ?_, ?_, ?_, ?_⟩
  · intro m
    rw [mem_listing_page, passes_from_only X hX m]
  · intro m
    rw [mem_listing_page, passes_since_only T m]
  · intro m
    rw [mem_listing_page, passes_q_only qs hq hw m]
  · intro fo so qo m
    rw [mem_listing_page, mem_listing_page, mem_listing_page, mem_listing_page,
      passes_decompose fo so qo m]
    simp only [Bool.and_eq_true]
    tauto
  · intro limit offset fo so qo
    unfold listing_page
    simp only [list_messages]
    rw [List.drop_zero, List.take_of_length_le]
    · rw [List.length_insertionSort]
    · rw [List.length_insertionSort]
      exact List.length_filter_le _ db

/-- C6 witness: the amended theorem applied at concrete filter values; its
`total` clause instantiated at the empty store. -/
theorem C6_witness :
    (list_messages ([] : List Msg) 50 0 none none none).2 =
      (listing_page ([] : List Msg) none none none).length :=
  (C6_amended_filters [] "+1" 0 "a" (by decide) (by decide) (by unfold noWildcards; decide)).2.2.2.2 50 0 none none none
